import Mathlib

/-!
Shallow embedding of the model-lifecycle core of `mlops-hw01`:
the model registry (`src/models/registry.py`), the model store
(`src/core/services/models/model_store.py`), the training orchestrator
(`src/core/services/models/training_service.py`) and the inference engine
(`src/core/services/models/inference_service.py`).

Python dicts are modelled as insertion-ordered association lists over
`String` keys; pandas frames as a column list plus row-major cell lists;
external collaborators (the dataset accessor, the sklearn `fit`) as
explicit environment parameters.  External library behaviour that the
core relies on (pandas column alignment, sklearn split validation) is
translated from the documented contracts those calls have at the call
sites in the source.
-/

namespace Mlops

/-- A Python scalar value as it appears in instance dicts, hyperparameter
dicts and metadata: `None`, booleans, ints, strings, and floats
(modelled exactly as rationals, since no claim depends on rounding). -/
inductive PyVal : Type
  | pynone : PyVal
  | pybool : Bool → PyVal
  | pyint : Int → PyVal
  | pystr : String → PyVal
  | pyfloat : Rat → PyVal
  deriving DecidableEq, Repr

/-- A Python `dict` with string keys: an insertion-ordered association list. -/
abbrev Dict := List (String × PyVal)

/-- Dict lookup `d[k]` on an association list (first match; Python dicts have
unique keys, for which this is exact). -/
def alookup {α : Type} (k : String) : List (String × α) → Option α
  | [] => none
  | kv :: rest => if kv.1 = k then some kv.2 else alookup k rest

/-- Key list `list(d.keys())`. -/
def dictKeys {α : Type} (d : List (String × α)) : List String :=
  d.map Prod.fst

/-- Python `d[k] = v`: replace the value in place if the key is present
(dicts keep the original insertion position), otherwise append. -/
def dictSet {α : Type} (d : List (String × α)) (k : String) (v : α) :
    List (String × α) :=
  if k ∈ dictKeys d then
    d.map (fun kv => if kv.1 = k then (k, v) else kv)
  else
    d ++ [(k, v)]

/-- Python `d.pop(k, None)` / file unlink: drop every binding of `k`
(at most one exists in an actual dict). -/
def dictRemove {α : Type} (d : List (String × α)) (k : String) :
    List (String × α) :=
  d.filter (fun kv => kv.1 ≠ k)

/-- Python `{**a, **b}`: the keys of `a` in order with values overridden
by `b` where `b` binds them, followed by the keys of `b` not in `a`. -/
def dictUpdate {α : Type} (a b : List (String × α)) : List (String × α) :=
  a.map (fun kv =>
    match alookup kv.1 b with
    | some v => (kv.1, v)
    | none => kv) ++
  b.filter (fun kv => kv.1 ∉ dictKeys a)

/-! ## Model registry (`src/models/registry.py`) -/

/-- A constructed sklearn estimator: the class that was instantiated and
the keyword arguments it received. -/
structure Estimator : Type where
  cls : String
  kwargs : Dict
  deriving DecidableEq, Repr

/-- ModelSpec: model key, estimator class, default hyperparameters. -/
structure ModelSpec : Type where
  key : String
  cls : String
  defaults : Dict
  deriving DecidableEq, Repr

/-- Method `ModelSpec.build`: keep only the supplied params whose keys already
occur in the defaults, merge them over the defaults, and construct the
estimator with the merged kwargs. -/
def ModelSpec.build (s : ModelSpec) (params : Dict) : Estimator :=
  let allowed := dictKeys s.defaults
  let clean := params.filter (fun kv => kv.1 ∈ allowed)
  let merged := dictUpdate s.defaults clean
  ⟨s.cls, merged⟩

/-- Method `ModelRegistry.register`: `self._specs[spec.key] = spec`. -/
def registerSpec (specs : List (String × ModelSpec)) (s : ModelSpec) :
    List (String × ModelSpec) :=
  dictSet specs s.key s

/-- The `logistic_regression` spec registered at module initialisation. -/
def logisticSpec : ModelSpec :=
  ⟨"logistic_regression", "LogisticRegression",
    [("C", .pyfloat 1), ("max_iter", .pyint 200), ("solver", .pystr "lbfgs")]⟩

/-- The `random_forest` spec registered at module initialisation. -/
def forestSpec : ModelSpec :=
  ⟨"random_forest", "RandomForestClassifier",
    [("n_estimators", .pyint 200), ("max_depth", .pynone),
     ("random_state", .pyint 42), ("n_jobs", .pyint (-1))]⟩

/-- The registry contents after the two `registry.register(...)` calls. -/
def registrySpecs : List (String × ModelSpec) :=
  registerSpec (registerSpec [] logisticSpec) forestSpec

/-- Method `ModelRegistry.get`: raises `KeyError("Unknown model_key: ...")` when
the key is not registered. -/
def registryGet (key : String) : Except String ModelSpec :=
  match alookup key registrySpecs with
  | none => .error ("Unknown model_key: " ++ key)
  | some s => .ok s

/-- Function `build_model(model_key, params)` = `registry.build(model_key, params)`. -/
def build_model (model_key : String) (params : Dict) : Except String Estimator :=
  (registryGet model_key).map (fun s => s.build params)

/-! ## Frames (pandas DataFrames as used by the core) -/

/-- A cell: `none` models a missing value (`NaN` / inserted `None`). -/
abbrev Cell := Option PyVal

/-- A pandas frame as the core observes it: an ordered column list, the
pandas dtype string of each column (parallel to `cols`; only the
preprocessing builder reads it), and row-major cells. -/
structure Frame : Type where
  cols : List String
  dtypes : List String
  rows : List (List Cell)

/-- Positional lookup of the cell for column `t` in one row: the column
list and the row are walked together, first matching label wins. -/
def rowLookup : List String → List Cell → String → Cell
  | [], _, _ => none
  | _ :: _, [], _ => none
  | c :: cs, x :: xs, t => if c = t then x else rowLookup cs xs t

/-- Column drop `df.drop(columns=[t])`: drop every column labelled `t`. -/
def Frame.dropCol (df : Frame) (t : String) : Frame where
  cols := df.cols.filter (fun c => c ≠ t)
  dtypes := ((df.cols.zip df.dtypes).filter (fun p => p.1 ≠ t)).map Prod.snd
  rows := df.rows.map (fun r => ((df.cols.zip r).filter (fun p => p.1 ≠ t)).map Prod.snd)

/-- Column selection `df[t]`: the column labelled `t` as a series. -/
def Frame.series (df : Frame) (t : String) : List Cell :=
  df.rows.map (fun r => rowLookup df.cols r t)

/-! ## Model store (`src/core/services/models/model_store.py`) -/

/-- A fitted pipeline artifact as inference observes it: per-row
prediction, whether `named_steps` exposes a `"model"` step that has
`predict_proba`, and the probability path
(`named_steps["prep"].transform` then `predict_proba(...).tolist()`),
which may raise. -/
structure FittedPipe : Type where
  predictRow : List Cell → PyVal
  hasProba : Bool
  probaRun : Frame → Except String (List (List Rat))

/-- The metadata dict assembled by `train_model` before saving. -/
structure TrainMeta : Type where
  model_key : String
  dataset_id : String
  target_column : String
  features : List String
  metrics : List (String × Rat)
  hyperparams : Dict
  test_size : Rat
  shuffle : Bool
  random_state : Int
  deriving DecidableEq, Repr

/-- The stored index payload: `{**meta, "model_id", "path", "created_at"}`. -/
structure StoredMeta : Type where
  meta : TrainMeta
  model_id : String
  path : String
  created_at : String
  deriving DecidableEq, Repr

/-- The persisted state owned by the store: the JSON index
(`artifacts/models/index.json`) and the artifact files, keyed by the
model id their fixed path is derived from. -/
structure Store : Type where
  index : List (String × StoredMeta)
  artifacts : List (String × FittedPipe)

/-- Artifact path `model_path(model_id)`: the fixed per-id joblib path under `artifacts/models`. -/
def model_path (model_id : String) : String :=
  "artifacts/models/" ++ model_id ++ ".joblib"

/-- Python `model_id or uuid4().hex`: `None` and the empty string are
falsy, so either falls back to the generated hex. -/
def pyOrUuid (model_id : Option String) (uuidHex : String) : String :=
  match model_id with
  | none => uuidHex
  | some s => if s = "" then uuidHex else s

/-- One externally visible write of `save_model`, in program order:
`dump(pipeline, path)` or `_write_index(index)`. -/
inductive SaveEff : Type
  | dumpArtifact : String → FittedPipe → SaveEff
  | writeIndex : List (String × StoredMeta) → SaveEff

/-- Apply one write to the persisted state. -/
def applyEff (st : Store) : SaveEff → Store
  | .dumpArtifact mid pipe => { st with artifacts := dictSet st.artifacts mid pipe }
  | .writeIndex idx => { st with index := idx }

/-- The writes `save_model` performs, in the order the source performs
them: the artifact dump first, then the whole-index overwrite with the
entry inserted/replaced. -/
def saveEffects (st : Store) (pipe : FittedPipe) (meta : TrainMeta)
    (mid : String) (now : String) : List SaveEff :=
  let payload : StoredMeta := ⟨meta, mid, model_path mid, now⟩
  [.dumpArtifact mid pipe, .writeIndex (dictSet st.index mid payload)]

/-- The state after the first `k` writes of a save (a save interrupted
partway executes exactly such a prefix). -/
def runFirstK (st : Store) (effs : List SaveEff) (k : Nat) : Store :=
  (effs.take k).foldl applyEff st

/-- Store write `save_model(pipeline, meta, model_id=None) -> model_id`.  `uuidHex`
is the `uuid4().hex` drawn for this call and `now` the timestamp. -/
def save_model (st : Store) (pipe : FittedPipe) (meta : TrainMeta)
    (model_id : Option String) (uuidHex : String) (now : String) :
    Store × String :=
  let mid := pyOrUuid model_id uuidHex
  ((saveEffects st pipe meta mid now).foldl applyEff st, mid)

/-- Errors raised by store reads: `ModelNotFoundError` when the id is
absent from the index, and the loader's file error when the index entry
exists but the artifact file does not. -/
inductive StoreErr : Type
  | modelNotFound : String → StoreErr
  | fileNotFound : String → StoreErr
  deriving DecidableEq, Repr

/-- Store read `load_model(model_id)`: `ModelNotFoundError` if the id is not in the
index, otherwise deserialize the artifact at `model_path(model_id)`. -/
def load_model (st : Store) (model_id : String) :
    Except StoreErr (FittedPipe × StoredMeta) :=
  match alookup model_id st.index with
  | none => .error (.modelNotFound ("model_id not found: " ++ model_id))
  | some meta =>
    match alookup model_id st.artifacts with
    | none => .error (.fileNotFound (model_path model_id))
    | some pipe => .ok (pipe, meta)

/-- Listing `list_models()`: the index values. -/
def list_models (st : Store) : List StoredMeta :=
  st.index.map Prod.snd

/-- Deletion `delete_model(model_id) -> existed`: pop the index entry if present
(rewriting the index), unlink the artifact file if present; `existed` is
true when either was present. -/
def delete_model (st : Store) (model_id : String) : Store × Bool :=
  let inIdx := (alookup model_id st.index).isSome
  let index := if inIdx then dictRemove st.index model_id else st.index
  let inArt := (alookup model_id st.artifacts).isSome
  let artifacts := if inArt then dictRemove st.artifacts model_id else st.artifacts
  (⟨index, artifacts⟩, inIdx || inArt)

/-! ## Inference engine (`src/core/services/models/inference_service.py`) -/

/-- The column labels `pd.DataFrame(instances)` produces: the union of
the instance dicts' keys in first-appearance order. -/
def frameCols (instances : List Dict) : List String :=
  instances.foldl
    (fun acc d => acc ++ (dictKeys d).filter (fun k => k ∉ acc)) []

/-- Table construction `pd.DataFrame(instances)`: columns are the key union; the cell of
row `i` at column `c` is the value instance `i` binds to `c`, `NaN`
(here `none`) when the key is absent.  (pandas infers per-column dtypes
from the data; nothing downstream of this constructor reads them, so the
mixed-object dtype stands in for all of them.) -/
def pdDataFrame (instances : List Dict) : Frame where
  cols := frameCols instances
  dtypes := (frameCols instances).map (fun _ => "object")
  rows := instances.map (fun d => (frameCols instances).map (fun c => alookup c d))

/-- The alignment loop `for c in feats: if c not in X.columns: X[c] = None`:
each feature absent from the columns is appended as an all-`None` column. -/
def addMissingCols (X : Frame) (feats : List String) : Frame :=
  feats.foldl
    (fun acc c =>
      if c ∈ acc.cols then acc
      else { acc with
              cols := acc.cols ++ [c]
              rows := acc.rows.map (fun r => r ++ [none]) })
    X

/-- Selection `X[feats]`: select/reorder the columns to exactly `feats`. -/
def selectCols (X : Frame) (feats : List String) : Frame where
  cols := feats
  dtypes := feats.map (fun _ => "object")
  rows := X.rows.map (fun r => feats.map (fun c => rowLookup X.cols r c))

/-- The table `predict` hands to the pipeline: raw `pd.DataFrame` when
the recorded feature list is empty (`if feats:` is false), otherwise the
null-filled, feature-ordered selection. -/
def inferAlign (feats : List String) (instances : List Dict) : Frame :=
  let X := pdDataFrame instances
  if feats.isEmpty then X
  else selectCols (addMissingCols X feats) feats

/-- Errors `predict` raises: `NoInstancesError` and the store errors it
propagates from `load_model`. -/
inductive PredErr : Type
  | noInstances : PredErr
  | storeErr : StoreErr → PredErr
  deriving DecidableEq, Repr

/-- Inference entry point `predict(model_id=..., instances=...)`.
Returns `(predictions, probabilities|None)`.
The probability block is wrapped in `try/except Exception`, so a failing
probability path yields `None`, never an error. -/
def predictSvc (st : Store) (model_id : String) (instances : List Dict) :
    Except PredErr (List PyVal × Option (List (List Rat))) :=
  if instances.isEmpty then .error .noInstances
  else
    match load_model st model_id with
    | .error e => .error (.storeErr e)
    | .ok (pipe, smeta) =>
      .ok ((inferAlign smeta.meta.features instances).rows.map pipe.predictRow,
        if pipe.hasProba then
          match pipe.probaRun (inferAlign smeta.meta.features instances) with
          | .ok p => some p
          | .error _ => none
        else none)

/-! ## Training orchestrator (`src/core/services/models/training_service.py`) -/

/-- Errors `DatasetNotFoundError` / `DatasetReadError(detail)` raised by
`load_df` in the dataset service. -/
inductive DsErr : Type
  | datasetNotFound : DsErr
  | datasetReadError : String → DsErr
  deriving DecidableEq, Repr

/-- Errors a training call can surface: the dataset errors re-raised
verbatim, `TargetColumnNotFoundError(column)`, the registry's
`KeyError`, and the plain `ValueError`s sklearn raises (invalid split
fraction, malformed hyperparameters at fit time). -/
inductive TrainErr : Type
  | dsErr : DsErr → TrainErr
  | targetColumnNotFound : String → TrainErr
  | unknownModelKey : String → TrainErr
  | valueError : String → TrainErr
  deriving DecidableEq, Repr

/-- The `ColumnTransformer` the builder assembles: the numeric and
categorical column lists it routes to the two imputation pipelines. -/
structure Preproc : Type where
  numCols : List String
  catCols : List String
  deriving DecidableEq, Repr

/-- Builder `_build_preprocessor(X)`: partition the columns by dtype
(`object`/`category*` is categorical, the rest numeric) and return the
transformer together with `list(X.columns)`. -/
def _build_preprocessor (X : Frame) : Preproc × List String :=
  let cat := ((X.cols.zip X.dtypes).filter
    (fun p => p.2 = "object" ∨ p.2.startsWith "category")).map Prod.fst
  let num := X.cols.filter (fun c => c ∉ cat)
  (⟨num, cat⟩, X.cols)

/-- An unfitted `Pipeline(steps=[("prep", preprocessor), ("model", model)])`. -/
structure SkPipeline : Type where
  prep : Preproc
  model : Estimator
  deriving DecidableEq, Repr

/-- The message of the `ValueError` sklearn's split validation raises
for a float `test_size` outside `(0, 1)`. -/
def splitRangeMsg (ts : Rat) : String :=
  "test_size=" ++ toString ts ++
    " should be either positive and smaller than the number of samples or a float in the (0, 1) range"

/-- Split helper `train_test_split(X, y, test_size=..., shuffle=..., random_state=...)`.
sklearn validates that a float `test_size` lies in `(0, 1)` and that the
resulting train side is non-empty (`n_test = ceil(test_size * n)`,
`n_train = n - n_test`), raising `ValueError` otherwise.  The ceiling is
computed on the reduced fraction's parts: for `test_size = p/q` with
`0 < p` one has `⌈(p/q) * n⌉ = (p*n + (q-1)) / q` in integer division.
The returned partition is modelled on the unshuffled order; with
`shuffle=True` sklearn first permutes the rows by `random_state`, which
no property below observes. -/
def train_test_split (X : Frame) (y : List Cell) (test_size : Rat)
    (shuffle : Bool) (random_state : Int) :
    Except String ((Frame × Frame) × (List Cell × List Cell)) :=
  if 0 < test_size ∧ test_size < 1 then
    let n := X.rows.length
    let nTest := (test_size.num.toNat * n + (test_size.den - 1)) / test_size.den
    let nTrain := n - nTest
    if nTrain = 0 then
      .error ("With n_samples=" ++ toString n ++ ", test_size=" ++ toString test_size ++
        ", the resulting train set will be empty")
    else
      .ok ((⟨X.cols, X.dtypes, X.rows.take nTrain⟩,
            ⟨X.cols, X.dtypes, X.rows.drop nTrain⟩),
           (y.take nTrain, y.drop nTrain))
  else .error (splitRangeMsg test_size)

/-- Metric `accuracy_score(y_test, y_pred)`: the fraction of positions where
the held-out label equals the prediction. -/
def accuracy_score (yTrue : List Cell) (yPred : List PyVal) : Rat :=
  if yTrue.length = 0 then 0
  else ((yTrue.zip yPred).countP (fun p => p.1 = some p.2) : Rat) / (yTrue.length : Rat)

/-- The external collaborators of one training call: the dataset
accessor's `load_df`, sklearn's `pipe.fit` (which may raise, e.g. on
malformed hyperparameter values), the `uuid4().hex` drawn by the store
and the wall-clock timestamp. -/
structure TrainEnv : Type where
  load_df : String → Except DsErr Frame
  fit : SkPipeline → Frame → List Cell → Except String FittedPipe
  uuidHex : String
  now : String

/-- Orchestrator `train_model(...) -> (model_id, metrics)`, with the persisted store
state threaded explicitly; a raised error leaves the state it was raised
over.  The trailing ClearML block in the source is wrapped in
`try/except Exception: pass`: it mutates no store state and never
changes the result, so it has no image here. -/
def train_model (env : TrainEnv) (st : Store)
    (dataset_id : String) (target_column : String) (model_key : String)
    (hyperparams : Option Dict) (test_size : Rat) (shuffle : Bool)
    (random_state : Int) (model_id : Option String) :
    Store × Except TrainErr (String × List (String × Rat)) :=
  match env.load_df dataset_id with
  | .error e => (st, .error (.dsErr e))
  | .ok df =>
    if target_column ∈ df.cols then
      let X := df.dropCol target_column
      let y := df.series target_column
      let pr := _build_preprocessor X
      match build_model model_key (hyperparams.getD []) with
      | .error k => (st, .error (.unknownModelKey k))
      | .ok model =>
        let pipe : SkPipeline := ⟨pr.1, model⟩
        match train_test_split X y test_size shuffle random_state with
        | .error d => (st, .error (.valueError d))
        | .ok split =>
          match env.fit pipe split.1.1 split.2.1 with
          | .error d => (st, .error (.valueError d))
          | .ok fitted =>
            let yPred := split.1.2.rows.map fitted.predictRow
            let metrics := [("accuracy", accuracy_score split.2.2 yPred)]
            let meta : TrainMeta :=
              ⟨model_key, dataset_id, target_column, pr.2, metrics,
               hyperparams.getD [], test_size, shuffle, random_state⟩
            let saved := save_model st fitted meta model_id env.uuidHex env.now
            (saved.1, .ok (saved.2, metrics))
    else (st, .error (.targetColumnNotFound target_column))

/-! ## Concrete fixtures (used to evaluate the theorems on closed inputs) -/

/-- A fitted pipeline whose estimator step exposes no `predict_proba`. -/
def pipeNoProba : FittedPipe :=
  ⟨fun _ => .pyint 1, false, fun _ => .error "no predict_proba"⟩

/-- A fitted pipeline with probability support whose probability path
raises. -/
def pipeProbaErr : FittedPipe :=
  ⟨fun _ => .pyint 0, true, fun _ => .error "transform failed"⟩

/-- Metadata of a model trained on features `["age", "city"]`. -/
def metaAgeCity : TrainMeta :=
  ⟨"logistic_regression", "ds", "target", ["age", "city"],
   [("accuracy", 0)], [], mkRat 1 5, true, 42⟩

/-- The index payload the store writes for `metaAgeCity` under id `"m"`. -/
def smetaAgeCity : StoredMeta :=
  ⟨metaAgeCity, "m", model_path "m", "t"⟩

/-- A store holding the one trained model `"m"`. -/
def storeM : Store :=
  ⟨[("m", smetaAgeCity)], [("m", pipeNoProba)]⟩

/-- The same store with a probability-failing artifact for `"m"`. -/
def storeProbaErr : Store :=
  ⟨[("m", smetaAgeCity)], [("m", pipeProbaErr)]⟩

/-- A 2-row training frame with columns `[age, city, target]`. -/
def dfAgeCity : Frame :=
  ⟨["age", "city", "target"], ["int64", "object", "int64"],
   [[some (.pyint 30), some (.pystr "X"), some (.pyint 1)],
    [some (.pyint 40), some (.pystr "Y"), some (.pyint 0)]]⟩

/-- A training environment that serves `dfAgeCity` and fits successfully. -/
def envOk : TrainEnv :=
  ⟨fun _ => .ok dfAgeCity, fun _ _ _ => .ok pipeNoProba, "u1", "t0"⟩

/-- A training environment whose dataset accessor fails `DatasetNotFound`. -/
def envDsFail : TrainEnv :=
  ⟨fun _ => .error .datasetNotFound, fun _ _ _ => .ok pipeNoProba, "u1", "t0"⟩

/-! ## Association-list lemmas -/

theorem alookup_eq_none {α : Type} {k : String} {d : List (String × α)}
    (h : k ∉ dictKeys d) : alookup k d = none := by
  induction d with
  | nil => rfl
  | cons kv rest ih =>
    simp only [dictKeys, List.map_cons, List.mem_cons, not_or] at h
    rw [alookup, if_neg (fun hk : kv.1 = k => h.1 hk.symm)]
    exact ih h.2

theorem alookup_isSome {α : Type} {k : String} {d : List (String × α)}
    (h : k ∈ dictKeys d) : ∃ v, alookup k d = some v := by
  induction d with
  | nil => simp [dictKeys] at h
  | cons kv rest ih =>
    by_cases hk : kv.1 = k
    · exact ⟨kv.2, by simp [alookup, hk]⟩
    · simp only [dictKeys, List.map_cons, List.mem_cons] at h
      rcases h with h | h
      · exact absurd h.symm hk
      · obtain ⟨v, hv⟩ := ih h
        exact ⟨v, by simp [alookup, hk, hv]⟩

theorem alookup_append {α : Type} (k : String) (a b : List (String × α)) :
    alookup k (a ++ b) =
      match alookup k a with
      | some v => some v
      | none => alookup k b := by
  induction a with
  | nil => rfl
  | cons kv rest ih =>
    by_cases hk : kv.1 = k
    · simp [alookup, hk]
    · simp [alookup, hk, ih]

theorem alookup_filter_keys {α : Type} (k : String) (d : List (String × α))
    (p : String → Bool) :
    alookup k (d.filter (fun kv => p kv.1)) =
      if p k then alookup k d else none := by
  induction d with
  | nil => simp [alookup]
  | cons kv rest ih =>
    simp only [List.filter_cons]
    by_cases hp : p kv.1
    · simp only [hp, if_true]
      by_cases hk : kv.1 = k
      · subst hk; simp [alookup, hp]
      · simp [alookup, hk, ih]
    · simp only [hp, Bool.false_eq_true, if_false]
      by_cases hk : kv.1 = k
      · subst hk; simp [alookup, hp, ih]
      · simp [alookup, hk, ih]

theorem alookup_mapUpdate {α : Type} (a b : List (String × α)) (k : String) :
    alookup k (a.map (fun kv =>
        match alookup kv.1 b with
        | some v => (kv.1, v)
        | none => kv)) =
      (alookup k a).map (fun v => (alookup k b).getD v) := by
  induction a with
  | nil => rfl
  | cons kv rest ih =>
    by_cases hk : kv.1 = k
    · subst hk
      cases hb : alookup kv.1 b <;> simp [alookup, hb]
    · cases hb : alookup kv.1 b <;> simp [alookup, hb, hk, ih]

theorem dictKeys_map_fst {α : Type} (a b : List (String × α)) :
    dictKeys (a.map (fun kv =>
        match alookup kv.1 b with
        | some v => (kv.1, v)
        | none => kv)) = dictKeys a := by
  induction a with
  | nil => rfl
  | cons kv rest ih =>
    cases hb : alookup kv.1 b <;> simp [dictKeys, hb, ih] <;>
      simpa [dictKeys] using ih

theorem dictUpdate_sub {α : Type} (a b : List (String × α))
    (hb : ∀ kv ∈ b, kv.1 ∈ dictKeys a) :
    dictUpdate a b = a.map (fun kv =>
        match alookup kv.1 b with
        | some v => (kv.1, v)
        | none => kv) := by
  unfold dictUpdate
  rw [List.filter_eq_nil_iff.mpr, List.append_nil]
  intro kv hkv
  simpa using hb kv hkv

theorem alookup_dictUpdate_sub {α : Type} (a b : List (String × α))
    (hb : ∀ kv ∈ b, kv.1 ∈ dictKeys a) (k : String) :
    alookup k (dictUpdate a b) =
      (alookup k a).map (fun v => (alookup k b).getD v) := by
  rw [dictUpdate_sub a b hb, alookup_mapUpdate]

theorem dictKeys_dictUpdate_sub {α : Type} (a b : List (String × α))
    (hb : ∀ kv ∈ b, kv.1 ∈ dictKeys a) :
    dictKeys (dictUpdate a b) = dictKeys a := by
  rw [dictUpdate_sub a b hb, dictKeys_map_fst]

/-! ## C2: hyperparameter filtering in `ModelSpec.build` -/

/-- C2.  For every registered model key and every hyperparameter mapping,
`build` constructs the estimator from the spec's defaults overridden only
by the supplied keys that already exist in the defaults: the constructed
kwargs have exactly the defaults' key set (in order), a key present in
both takes the supplied value, a key only in the defaults keeps its
default, and an unknown key is dropped — it never reaches the
constructor.  (The defaults mapping itself is a field of the immutable
`ModelSpec` and is only read by `build`, never rebound.) -/
theorem build_filters_hyperparams (key : String) (spec : ModelSpec)
    (params : Dict) (hreg : registryGet key = .ok spec) :
    (spec.build params).cls = spec.cls ∧
    dictKeys (spec.build params).kwargs = dictKeys spec.defaults ∧
    ∀ k, alookup k (spec.build params).kwargs =
      if k ∈ dictKeys spec.defaults then
        match alookup k params with
        | some v => some v
        | none => alookup k spec.defaults
      else none := by
  clear hreg
  refine ⟨rfl, ?_, ?_⟩
  · unfold ModelSpec.build
    exact dictKeys_dictUpdate_sub _ _
      (fun kv hkv => by simpa using (List.mem_filter.mp hkv).2)
  · intro k
    unfold ModelSpec.build
    rw [alookup_dictUpdate_sub _ _
      (fun kv hkv => by simpa using (List.mem_filter.mp hkv).2)]
    rw [alookup_filter_keys k params (fun s => s ∈ dictKeys spec.defaults)]
    by_cases hmem : k ∈ dictKeys spec.defaults
    · obtain ⟨v₀, hv₀⟩ := alookup_isSome hmem
      rw [hv₀]
      cases hp : alookup k params <;> simp [hp, hv₀, hmem]
    · rw [alookup_eq_none hmem]
      simp [hmem]

/-- C2 witness: `build("logistic_regression", {"C": 2.0, "bogus_param": 1})`
keeps the default key set, uses `C=2.0`, and drops `bogus_param`. -/
theorem build_filters_hyperparams_witness :
    dictKeys (logisticSpec.build
        [("C", .pyfloat 2), ("bogus_param", .pyint 1)]).kwargs =
      dictKeys logisticSpec.defaults ∧
    alookup "C" (logisticSpec.build
        [("C", .pyfloat 2), ("bogus_param", .pyint 1)]).kwargs =
      some (.pyfloat 2) ∧
    alookup "bogus_param" (logisticSpec.build
        [("C", .pyfloat 2), ("bogus_param", .pyint 1)]).kwargs = none := by
  have h := build_filters_hyperparams "logistic_regression" logisticSpec
    [("C", .pyfloat 2), ("bogus_param", .pyint 1)] rfl
  exact ⟨h.2.1, by decide, by decide⟩

/-! ## C5: delete semantics -/

theorem alookup_dictRemove_self {α : Type} (d : List (String × α)) (k : String) :
    alookup k (dictRemove d k) = none := by
  apply alookup_eq_none
  intro hmem
  unfold dictKeys dictRemove at hmem
  obtain ⟨kv, hkv, hfst⟩ := List.mem_map.mp hmem
  have := List.of_mem_filter hkv
  simp [hfst] at this

/-- C5.  `delete` returns `existed=true` iff at least one of the index
entry or the artifact file was present; afterwards neither is present, a
second delete of the same id returns `existed=false`, and a load of the
id fails `ModelNotFound`. -/
theorem delete_idempotent_and_load_fails (st : Store) (mid : String) :
    ((delete_model st mid).2 = true ↔
      ((alookup mid st.index).isSome ∨ (alookup mid st.artifacts).isSome)) ∧
    alookup mid (delete_model st mid).1.index = none ∧
    alookup mid (delete_model st mid).1.artifacts = none ∧
    (delete_model (delete_model st mid).1 mid).2 = false ∧
    load_model (delete_model st mid).1 mid =
      .error (.modelNotFound ("model_id not found: " ++ mid)) := by
  have hidx : alookup mid (delete_model st mid).1.index = none := by
    unfold delete_model
    by_cases h : (alookup mid st.index).isSome
    · simp only [h, if_true]
      exact alookup_dictRemove_self _ _
    · simp only [h, if_false]
      simpa using Option.not_isSome_iff_eq_none.mp h
  have hart : alookup mid (delete_model st mid).1.artifacts = none := by
    unfold delete_model
    by_cases h : (alookup mid st.artifacts).isSome
    · simp only [h, if_true]
      exact alookup_dictRemove_self _ _
    · simp only [h, if_false]
      simpa using Option.not_isSome_iff_eq_none.mp h
  have hsnd : ∀ s : Store, (delete_model s mid).2 =
      ((alookup mid s.index).isSome || (alookup mid s.artifacts).isSome) :=
    fun _ => rfl
  refine ⟨?_, hidx, hart, ?_, ?_⟩
  · rw [hsnd]
    simp [Bool.or_eq_true, Option.isSome_iff_exists]
  · rw [hsnd, hidx, hart]
    rfl
  · unfold load_model
    rw [hidx]

/-! ## `dictSet` lemmas -/

theorem alookup_map_set_self {α : Type} (d : List (String × α)) (k : String)
    (v : α) (hmem : k ∈ dictKeys d) :
    alookup k (d.map (fun kv => if kv.1 = k then (k, v) else kv)) = some v := by
  induction d with
  | nil => simp [dictKeys] at hmem
  | cons kv rest ih =>
    by_cases hk : kv.1 = k
    · simp [alookup, hk]
    · simp only [dictKeys, List.map_cons, List.mem_cons] at hmem
      rcases hmem with hmem | hmem
      · exact absurd hmem.symm hk
      · simp [alookup, hk, ih hmem]

theorem alookup_map_set_ne {α : Type} (d : List (String × α)) (k₀ : String)
    (v : α) (k : String) (hne : k ≠ k₀) :
    alookup k (d.map (fun kv => if kv.1 = k₀ then (k₀, v) else kv)) =
      alookup k d := by
  induction d with
  | nil => rfl
  | cons kv rest ih =>
    by_cases hk0 : kv.1 = k₀
    · have : ¬ (k₀ = k) := fun h => hne h.symm
      simp [alookup, hk0, this, ih]
    · simp [alookup, hk0, ih]

theorem alookup_dictSet_self {α : Type} (d : List (String × α)) (k : String)
    (v : α) : alookup k (dictSet d k v) = some v := by
  unfold dictSet
  by_cases hmem : k ∈ dictKeys d
  · rw [if_pos hmem]
    exact alookup_map_set_self d k v hmem
  · rw [if_neg hmem, alookup_append, alookup_eq_none hmem]
    simp [alookup]

theorem alookup_dictSet_ne {α : Type} (d : List (String × α)) (k₀ : String)
    (v : α) (k : String) (hne : k ≠ k₀) :
    alookup k (dictSet d k₀ v) = alookup k d := by
  unfold dictSet
  by_cases hmem : k₀ ∈ dictKeys d
  · rw [if_pos hmem]
    exact alookup_map_set_ne d k₀ v k hne
  · rw [if_neg hmem, alookup_append]
    cases hd : alookup k d with
    | some w => rfl
    | none =>
      show alookup k [(k₀, v)] = none
      show (if k₀ = k then some v else alookup k ([] : List (String × α))) = none
      rw [if_neg (fun h : k₀ = k => hne h.symm)]
      rfl

theorem dictKeys_map_set {α : Type} (d : List (String × α)) (k : String)
    (v : α) :
    dictKeys (d.map (fun kv => if kv.1 = k then (k, v) else kv)) =
      dictKeys d := by
  induction d with
  | nil => rfl
  | cons kv rest ih =>
    by_cases hk : kv.1 = k
    · simp only [List.map_cons, if_pos hk, dictKeys] at *
      simp [hk, ih]
    · simp only [List.map_cons, if_neg hk, dictKeys] at *
      simp [ih]

theorem dictKeys_dictSet {α : Type} (d : List (String × α)) (k : String)
    (v : α) :
    dictKeys (dictSet d k v) =
      if k ∈ dictKeys d then dictKeys d else dictKeys d ++ [k] := by
  unfold dictSet
  by_cases hmem : k ∈ dictKeys d
  · rw [if_pos hmem, if_pos hmem, dictKeys_map_set]
  · rw [if_neg hmem, if_neg hmem]
    simp [dictKeys]

theorem mem_dictKeys_dictSet_self {α : Type} (d : List (String × α))
    (k : String) (v : α) : k ∈ dictKeys (dictSet d k v) := by
  rw [dictKeys_dictSet]
  by_cases hmem : k ∈ dictKeys d <;> simp [hmem]

theorem nodup_dictKeys_dictSet {α : Type} (d : List (String × α)) (k : String)
    (v : α) (hnd : (dictKeys d).Nodup) : (dictKeys (dictSet d k v)).Nodup := by
  rw [dictKeys_dictSet]
  by_cases hmem : k ∈ dictKeys d
  · simpa [hmem] using hnd
  · simp only [hmem, if_false]
    simp [List.nodup_append, hnd, hmem]

theorem countP_keys_eq_one {l : List String} {a : String} (hnd : l.Nodup)
    (hm : a ∈ l) : l.countP (fun k => k = a) = 1 := by
  induction l with
  | nil => cases hm
  | cons b t ih =>
    rw [List.countP_cons]
    rcases List.nodup_cons.mp hnd with ⟨hbt, hndt⟩
    rcases List.mem_cons.mp hm with h | h
    · subst h
      have hz : t.countP (fun k => k = a) = 0 :=
        List.countP_eq_zero.mpr (fun x hx => by
          simp only [decide_eq_true_eq]
          exact fun hxa => hbt (hxa ▸ hx))
      simp [hz]
    · have hba : ¬ (b = a) := fun hba => hbt (hba ▸ h)
      simp [ih hndt h, hba]

theorem countP_fst_eq_countP_keys {α : Type} (d : List (String × α))
    (a : String) :
    d.countP (fun kv => kv.1 = a) = (dictKeys d).countP (fun k => k = a) := by
  unfold dictKeys
  rw [List.countP_map]
  rfl

/-- Closed form of `save_model`: the state after a save has the artifact
overwritten at the id's path and the index overwritten with the entry
inserted/replaced, and returns the id. -/
theorem save_model_eq (st : Store) (pipe : FittedPipe) (meta : TrainMeta)
    (model_id : Option String) (uuidHex now : String) :
    save_model st pipe meta model_id uuidHex now =
      (⟨dictSet st.index (pyOrUuid model_id uuidHex)
          ⟨meta, pyOrUuid model_id uuidHex,
           model_path (pyOrUuid model_id uuidHex), now⟩,
        dictSet st.artifacts (pyOrUuid model_id uuidHex) pipe⟩,
       pyOrUuid model_id uuidHex) := rfl

/-! ## C4: save id allocation and index uniqueness -/

/-- C4.  A save without a `model_id` returns the freshly drawn
`uuid4().hex`; a save with an existing non-empty `model_id` replaces the
entry in place (key list unchanged) and overwrites the artifact; after
any successful save the index binds the returned id to exactly one
record (the new payload), other ids are untouched, and key uniqueness is
preserved. -/
theorem save_preserves_unique_index (st : Store) (pipe : FittedPipe)
    (meta : TrainMeta) (model_id : Option String) (uuidHex now : String)
    (st' : Store) (mid : String)
    (hnd : (dictKeys st.index).Nodup)
    (hsave : save_model st pipe meta model_id uuidHex now = (st', mid)) :
    (model_id = none → mid = uuidHex) ∧
    (∀ m, model_id = some m → m ≠ "" →
      mid = m ∧ (m ∈ dictKeys st.index → dictKeys st'.index = dictKeys st.index)) ∧
    alookup mid st'.index = some ⟨meta, mid, model_path mid, now⟩ ∧
    alookup mid st'.artifacts = some pipe ∧
    (∀ k, k ≠ mid → alookup k st'.index = alookup k st.index) ∧
    (dictKeys st'.index).Nodup ∧
    st'.index.countP (fun kv => kv.1 = mid) = 1 := by
  rw [save_model_eq] at hsave
  obtain ⟨hst, hmid⟩ := Prod.mk.injEq _ _ _ _ ▸ hsave
  subst hst
  subst hmid
  refine ⟨?_, ?_, ?_, ?_, ?_, ?_, ?_⟩
  · intro h; rw [h]; rfl
  · intro m hm hne
    rw [hm]
    have hmval : pyOrUuid (some m) uuidHex = m := by
      show (if m = "" then uuidHex else m) = m
      rw [if_neg hne]
    refine ⟨hmval, fun hmem => ?_⟩
    rw [hmval, dictKeys_dictSet, if_pos hmem]
  · exact alookup_dictSet_self _ _ _
  · exact alookup_dictSet_self _ _ _
  · intro k hk
    exact alookup_dictSet_ne _ _ _ _ hk
  · exact nodup_dictKeys_dictSet _ _ _ hnd
  · rw [countP_fst_eq_countP_keys]
    exact countP_keys_eq_one (nodup_dictKeys_dictSet _ _ _ hnd)
      (mem_dictKeys_dictSet_self _ _ _)

/-- C4 witness: saving into the empty store with no id returns the drawn
uuid and leaves exactly one entry for it. -/
theorem save_preserves_unique_index_witness :
    alookup "u1" (save_model ⟨[], []⟩ pipeNoProba metaAgeCity none "u1" "t").1.index =
      some ⟨metaAgeCity, "u1", model_path "u1", "t"⟩ ∧
    (save_model ⟨[], []⟩ pipeNoProba metaAgeCity none "u1" "t").1.index.countP
      (fun kv => kv.1 = "u1") = 1 := by
  have h := save_preserves_unique_index ⟨[], []⟩ pipeNoProba metaAgeCity none
    "u1" "t" (save_model ⟨[], []⟩ pipeNoProba metaAgeCity none "u1" "t").1
    (save_model ⟨[], []⟩ pipeNoProba metaAgeCity none "u1" "t").2
    (by decide) rfl
  exact ⟨h.2.2.1, h.2.2.2.2.2.2⟩

/-! ## C10: write ordering inside a save -/

theorem runFirstK_two (a b : SaveEff) (st : Store) (n : Nat) :
    runFirstK st [a, b] (n + 2) = applyEff (applyEff st a) b := by
  unfold runFirstK
  rw [List.take_succ_cons, List.take_succ_cons, List.take_nil]
  rfl

/-- C10.  The writes of one save are, in program order, the artifact
dump and then the index overwrite; consequently for every prefix of the
writes (a save interrupted partway) a fresh id that is in the index
already has its artifact, while the one-write prefix exhibits an
artifact without an index entry. -/
theorem artifact_written_before_index (st : Store) (pipe : FittedPipe)
    (meta : TrainMeta) (mid now : String)
    (hfresh : mid ∉ dictKeys st.index) :
    saveEffects st pipe meta mid now =
      [SaveEff.dumpArtifact mid pipe,
       SaveEff.writeIndex (dictSet st.index mid ⟨meta, mid, model_path mid, now⟩)] ∧
    (∀ k, mid ∈ dictKeys (runFirstK st (saveEffects st pipe meta mid now) k).index →
      mid ∈ dictKeys (runFirstK st (saveEffects st pipe meta mid now) k).artifacts) ∧
    (mid ∈ dictKeys (runFirstK st (saveEffects st pipe meta mid now) 1).artifacts ∧
     mid ∉ dictKeys (runFirstK st (saveEffects st pipe meta mid now) 1).index) :=
  by
  refine ⟨rfl, ?_, ?_, ?_⟩
  · intro k
    match k with
    | 0 => exact fun h => absurd h hfresh
    | 1 => exact fun h => absurd h hfresh
    | (n + 2) =>
      intro _
      simp only [saveEffects, runFirstK_two]
      exact mem_dictKeys_dictSet_self _ _ _
  · exact mem_dictKeys_dictSet_self _ _ _
  · exact hfresh

/-- C10 witness: for a fresh id in a store holding one other model, the
one-write prefix leaves the artifact present and the index entry absent. -/
theorem artifact_written_before_index_witness :
    "w" ∈ dictKeys (runFirstK storeM
        (saveEffects storeM pipeNoProba metaAgeCity "w" "t") 1).artifacts ∧
    "w" ∉ dictKeys (runFirstK storeM
        (saveEffects storeM pipeNoProba metaAgeCity "w" "t") 1).index :=
  (artifact_written_before_index storeM pipeNoProba metaAgeCity "w" "t"
    (by decide)).2.2

/-! ## C6: predict error precedence -/

theorem isEmpty_false_of_ne_nil {α : Type} {l : List α} (h : l ≠ []) :
    l.isEmpty = false := by
  cases l with
  | nil => exact absurd rfl h
  | cons a t => rfl

/-- C6.  `predict` on an empty instance list fails `NoInstances`
whatever the store holds — in particular before any model lookup — and
`predict` on a non-empty list for an id absent from the index fails with
the store's `ModelNotFound`; neither case returns predictions. -/
theorem predict_error_precedence (st : Store) (mid : String)
    (instances : List Dict) (hne : instances ≠ [])
    (habs : alookup mid st.index = none) :
    predictSvc st mid [] = .error .noInstances ∧
    predictSvc st mid instances =
      .error (.storeErr (.modelNotFound ("model_id not found: " ++ mid))) := by
  constructor
  · rfl
  · unfold predictSvc
    rw [isEmpty_false_of_ne_nil hne]
    simp only [Bool.false_eq_true, if_false]
    unfold load_model
    rw [habs]

/-- C6 witness: the empty store. -/
theorem predict_error_precedence_witness :
    predictSvc ⟨[], []⟩ "ghost" [] = .error .noInstances ∧
    predictSvc ⟨[], []⟩ "ghost" [[("age", .pyint 1)]] =
      .error (.storeErr (.modelNotFound "model_id not found: ghost")) :=
  predict_error_precedence ⟨[], []⟩ "ghost" [[("age", .pyint 1)]]
    (by decide) rfl

/-! ## C8: best-effort probabilities -/

/-- C8.  Once `predict` reaches the prediction step (non-empty instances,
loadable model), it returns the predictions; and whenever the probability
attempt cannot succeed — the estimator step exposes no `predict_proba`,
or the introspection/transform path raises — the call still succeeds,
returning the same predictions with probabilities absent. -/
theorem proba_best_effort (st : Store) (mid : String) (instances : List Dict)
    (pipe : FittedPipe) (smeta : StoredMeta)
    (hne : instances ≠ [])
    (hload : load_model st mid = .ok (pipe, smeta)) :
    (∃ probs, predictSvc st mid instances =
      .ok ((inferAlign smeta.meta.features instances).rows.map pipe.predictRow,
        probs)) ∧
    ((pipe.hasProba = false ∨
        ∃ d, pipe.probaRun (inferAlign smeta.meta.features instances) = .error d) →
      predictSvc st mid instances =
        .ok ((inferAlign smeta.meta.features instances).rows.map pipe.predictRow,
          none)) := by
  unfold predictSvc
  rw [isEmpty_false_of_ne_nil hne]
  simp only [Bool.false_eq_true, if_false, hload]
  refine ⟨⟨_, rfl⟩, ?_⟩
  intro hfail
  rcases hfail with hf | ⟨d, hd⟩
  · simp [hf]
  · cases hp : pipe.hasProba
    · simp [hp]
    · simp [hp, hd]

/-- C8 witness: a stored model whose probability path raises still
serves its prediction, with probabilities absent. -/
theorem proba_best_effort_witness :
    predictSvc storeProbaErr "m" [[("age", .pyint 30)]] =
      .ok ([.pyint 0], none) := by
  have h := (proba_best_effort storeProbaErr "m" [[("age", .pyint 30)]]
    pipeProbaErr smetaAgeCity (by decide) rfl).2
    (Or.inr ⟨"transform failed", rfl⟩)
  exact h.trans (by rfl)

/-! ## C1: column alignment at inference time -/

theorem mem_frameCols_go (instances : List Dict) (acc : List String) :
    (∀ x ∈ acc, x ∈ instances.foldl
      (fun a d => a ++ (dictKeys d).filter (fun k => k ∉ a)) acc) ∧
    (∀ d ∈ instances, ∀ k ∈ dictKeys d, k ∈ instances.foldl
      (fun a d => a ++ (dictKeys d).filter (fun k => k ∉ a)) acc) := by
  induction instances generalizing acc with
  | nil => exact ⟨fun x h => h, by simp⟩
  | cons d rest ih =>
    obtain ⟨ih1, ih2⟩ := ih (acc ++ (dictKeys d).filter (fun k => k ∉ acc))
    refine ⟨?_, ?_⟩
    · intro x hx
      exact ih1 x (List.mem_append_left _ hx)
    · intro d' hd' k hk
      rcases List.mem_cons.mp hd' with hd' | hd'
      · subst hd'
        apply ih1
        by_cases hka : k ∈ acc
        · exact List.mem_append_left _ hka
        · exact List.mem_append_right _
            (List.mem_filter.mpr ⟨hk, by simpa using hka⟩)
      · exact ih2 d' hd' k hk

theorem mem_frameCols (instances : List Dict) :
    ∀ d ∈ instances, ∀ k ∈ dictKeys d, k ∈ frameCols instances :=
  (mem_frameCols_go instances []).2

theorem addMissingCols_spec (instances : List Dict) (feats : List String) :
    ∀ F : Frame,
      (∀ d ∈ instances, ∀ k ∈ dictKeys d, k ∈ F.cols) →
      F.rows = instances.map (fun d => F.cols.map (fun c => alookup c d)) →
      (addMissingCols F feats).rows =
        instances.map
          (fun d => (addMissingCols F feats).cols.map (fun c => alookup c d)) ∧
      (∀ c, c ∈ F.cols ∨ c ∈ feats → c ∈ (addMissingCols F feats).cols) := by
  induction feats with
  | nil =>
    intro F hk hr
    refine ⟨hr, fun c hc => ?_⟩
    rcases hc with hc | hc
    · exact hc
    · cases hc
  | cons c rest ih =>
    intro F hk hr
    have hstep : addMissingCols F (c :: rest) =
        addMissingCols (if c ∈ F.cols then F
          else { F with cols := F.cols ++ [c],
                        rows := F.rows.map (fun r => r ++ [none]) }) rest := rfl
    by_cases hc : c ∈ F.cols
    · rw [if_pos hc] at hstep
      rw [hstep]
      obtain ⟨h1, h2⟩ := ih F hk hr
      refine ⟨h1, fun c' hc' => h2 c' ?_⟩
      rcases hc' with hc' | hc'
      · exact Or.inl hc'
      · rcases List.mem_cons.mp hc' with hc' | hc'
        · exact Or.inl (hc' ▸ hc)
        · exact Or.inr hc'
    · rw [if_neg hc] at hstep
      rw [hstep]
      have hk' : ∀ d ∈ instances, ∀ k ∈ dictKeys d, k ∈ F.cols ++ [c] :=
        fun d hd k hkd => List.mem_append_left _ (hk d hd k hkd)
      have hr' : (F.rows.map (fun r => r ++ [none])) =
          instances.map (fun d => (F.cols ++ [c]).map (fun c' => alookup c' d)) := by
        rw [hr, List.map_map]
        apply List.map_congr_left
        intro d hd
        have hcd : alookup c d = none :=
          alookup_eq_none (fun hmem => hc (hk d hd c hmem))
        simp [Function.comp, List.map_append, hcd]
      obtain ⟨h1, h2⟩ := ih ⟨F.cols ++ [c], F.dtypes,
        F.rows.map (fun r => r ++ [none])⟩ hk' hr'
      refine ⟨h1, fun c' hc' => h2 c' ?_⟩
      rcases hc' with hc' | hc'
      · exact Or.inl (List.mem_append_left _ hc')
      · rcases List.mem_cons.mp hc' with hc' | hc'
        · exact Or.inl (List.mem_append_right _ (by simp [hc']))
        · exact Or.inr hc'

theorem rowLookup_map (cs : List String) (f : String → Cell) (t : String) :
    rowLookup cs (cs.map f) t = if t ∈ cs then f t else none := by
  induction cs with
  | nil => simp [rowLookup]
  | cons c cs ih =>
    simp only [List.map_cons, rowLookup]
    by_cases hc : c = t
    · subst hc; simp
    · rw [if_neg hc, ih]
      by_cases ht : t ∈ cs
      · rw [if_pos ht, if_pos (List.mem_cons.mpr (Or.inr ht))]
      · rw [if_neg ht, if_neg (fun h => by
          rcases List.mem_cons.mp h with h | h
          · exact hc h.symm
          · exact ht h)]

/-- The aligned table: its columns are exactly the recorded feature
order, and row `i` holds, for each feature in order, instance `i`'s
value for that feature (null when the instance lacks it; extra instance
keys appear nowhere). -/
theorem inferAlign_spec (feats : List String) (instances : List Dict)
    (hf : feats ≠ []) :
    (inferAlign feats instances).cols = feats ∧
    (inferAlign feats instances).rows =
      instances.map (fun d => feats.map (fun c => alookup c d)) := by
  unfold inferAlign
  rw [isEmpty_false_of_ne_nil hf]
  simp only [Bool.false_eq_true, if_false]
  have hk0 : ∀ d ∈ instances, ∀ k ∈ dictKeys d, k ∈ (pdDataFrame instances).cols :=
    mem_frameCols instances
  have hr0 : (pdDataFrame instances).rows =
      instances.map (fun d => (pdDataFrame instances).cols.map (fun c => alookup c d)) :=
    rfl
  obtain ⟨hr, hcols⟩ := addMissingCols_spec instances feats (pdDataFrame instances) hk0 hr0
  refine ⟨rfl, ?_⟩
  show (addMissingCols (pdDataFrame instances) feats).rows.map
      (fun r => feats.map
        (fun c => rowLookup (addMissingCols (pdDataFrame instances) feats).cols r c)) = _
  rw [hr, List.map_map]
  apply List.map_congr_left
  intro d hd
  show feats.map (fun c => rowLookup _ ((addMissingCols (pdDataFrame instances) feats).cols.map (fun c => alookup c d)) c) = _
  apply List.map_congr_left
  intro c hcf
  rw [rowLookup_map, if_pos (hcols c (Or.inr hcf))]

/-- C1.  For a stored model with (non-degenerate) recorded feature order
and a non-empty instance list, the table handed to the pipeline has
columns exactly `feature_order` in order, each row filled from the
matching instance with nulls for missing features and extra fields
dropped, and `predict` returns exactly one prediction per instance, in
input order. -/
theorem predict_builds_feature_order_table (st : Store) (mid : String)
    (instances : List Dict) (pipe : FittedPipe) (smeta : StoredMeta)
    (hne : instances ≠ [])
    (hload : load_model st mid = .ok (pipe, smeta))
    (hfne : smeta.meta.features ≠ []) :
    (inferAlign smeta.meta.features instances).cols = smeta.meta.features ∧
    (inferAlign smeta.meta.features instances).rows =
      instances.map (fun d => smeta.meta.features.map (fun c => alookup c d)) ∧
    ∃ probs,
      predictSvc st mid instances =
        .ok (instances.map
          (fun d => pipe.predictRow (smeta.meta.features.map (fun c => alookup c d))),
          probs) ∧
      (instances.map
        (fun d => pipe.predictRow (smeta.meta.features.map (fun c => alookup c d)))).length =
        instances.length := by
  obtain ⟨hcols, hrows⟩ := inferAlign_spec smeta.meta.features instances hfne
  refine ⟨hcols, hrows, ?_⟩
  unfold predictSvc
  rw [isEmpty_false_of_ne_nil hne]
  simp only [Bool.false_eq_true, if_false, hload]
  rw [hrows, List.map_map]
  exact ⟨_, rfl, by rw [List.length_map]⟩

/-- C1 witness: a single instance supplying only an extra field is
aligned to the two recorded features as an all-null row and yields one
prediction. -/
theorem predict_builds_feature_order_table_witness :
    (inferAlign ["age", "city"] [[("extra", .pyint 5)]]).cols = ["age", "city"] ∧
    (inferAlign ["age", "city"] [[("extra", .pyint 5)]]).rows = [[none, none]] := by
  have h := predict_builds_feature_order_table storeM "m" [[("extra", .pyint 5)]]
    pipeNoProba smetaAgeCity (by decide) rfl (by decide)
  exact ⟨h.1, h.2.1.trans (by rfl)⟩

/-! ## C3: training failures before any side effect -/

/-- C3.  If the dataset cannot be loaded, training re-raises the dataset
error verbatim; if the target column is absent from the loaded frame,
training fails `TargetColumnNotFound(column)`; in both cases the
persisted store is exactly the pre-call store. -/
theorem train_fail_no_side_effects (env : TrainEnv) (st : Store)
    (dataset_id target_column model_key : String) (hp : Option Dict)
    (ts : Rat) (sh : Bool) (rs : Int) (mid : Option String) :
    (∀ e, env.load_df dataset_id = .error e →
      train_model env st dataset_id target_column model_key hp ts sh rs mid =
        (st, .error (.dsErr e))) ∧
    (∀ df, env.load_df dataset_id = .ok df → target_column ∉ df.cols →
      train_model env st dataset_id target_column model_key hp ts sh rs mid =
        (st, .error (.targetColumnNotFound target_column))) := by
  constructor
  · intro e he
    unfold train_model
    simp only [he]
  · intro df hdf htc
    unfold train_model
    simp only [hdf]
    rw [if_neg htc]

/-- C3 witness: a failing dataset accessor leaves the empty store empty
and surfaces `DatasetNotFound` unchanged. -/
theorem train_fail_no_side_effects_witness :
    train_model envDsFail ⟨[], []⟩ "ds" "target" "logistic_regression" none
      (mkRat 1 5) true 42 none = (⟨[], []⟩, .error (.dsErr .datasetNotFound)) :=
  (train_fail_no_side_effects envDsFail ⟨[], []⟩ "ds" "target"
    "logistic_regression" none (mkRat 1 5) true 42 none).1 .datasetNotFound rfl

/-! ## C9: split-fraction validation errors -/

/-- C9.  A split fraction outside `(0, 1)` makes the training call fail
with the `ValueError` raised by the split validation, carrying that
layer's message unchanged through the orchestrator, and the store is
untouched; likewise a fit-time failure (e.g. malformed hyperparameter
values) surfaces its `ValueError` detail unchanged with no state
change. -/
theorem invalid_test_size_validation_error (env : TrainEnv) (st : Store)
    (dataset_id target_column model_key : String) (hp : Option Dict)
    (ts : Rat) (sh : Bool) (rs : Int) (mid : Option String)
    (df : Frame) (model : Estimator)
    (hdf : env.load_df dataset_id = .ok df)
    (htc : target_column ∈ df.cols)
    (hbm : build_model model_key (hp.getD []) = .ok model) :
    (¬ (0 < ts ∧ ts < 1) →
      train_model env st dataset_id target_column model_key hp ts sh rs mid =
        (st, .error (.valueError (splitRangeMsg ts)))) ∧
    (∀ split d,
      train_test_split (df.dropCol target_column) (df.series target_column)
        ts sh rs = .ok split →
      env.fit ⟨(_build_preprocessor (df.dropCol target_column)).1, model⟩
        split.1.1 split.2.1 = .error d →
      train_model env st dataset_id target_column model_key hp ts sh rs mid =
        (st, .error (.valueError d))) := by
  constructor
  · intro hrange
    have hsplit : train_test_split (df.dropCol target_column)
        (df.series target_column) ts sh rs = .error (splitRangeMsg ts) := by
      unfold train_test_split
      rw [if_neg hrange]
    unfold train_model
    simp only [hdf]
    rw [if_pos htc]
    simp only [hbm, hsplit]
  · intro split d hsplit hfit
    unfold train_model
    simp only [hdf]
    rw [if_pos htc]
    simp only [hbm, hsplit, hfit]

/-- C9 witness: `test_size = 3/2` fails the whole call with the split
validation's `ValueError` and leaves the empty store empty. -/
theorem invalid_test_size_validation_error_witness :
    train_model envOk ⟨[], []⟩ "ds" "target" "logistic_regression" none
      (mkRat 3 2) true 42 none =
      (⟨[], []⟩, .error (.valueError (splitRangeMsg (mkRat 3 2)))) :=
  (invalid_test_size_validation_error envOk ⟨[], []⟩ "ds" "target"
    "logistic_regression" none (mkRat 3 2) true 42 none dfAgeCity
    (logisticSpec.build []) rfl (by decide) rfl).1 (by decide)

/-! ## C7: the record written by a successful training call -/

theorem mem_dictSet {α : Type} {kv : String × α} {d : List (String × α)}
    {k : String} {v : α} (h : kv ∈ dictSet d k v) : kv ∈ d ∨ kv = (k, v) := by
  unfold dictSet at h
  by_cases hmem : k ∈ dictKeys d
  · rw [if_pos hmem] at h
    obtain ⟨kv₀, hkv₀, heq⟩ := List.mem_map.mp h
    by_cases hk : kv₀.1 = k
    · rw [if_pos hk] at heq
      exact Or.inr heq.symm
    · rw [if_neg hk] at heq
      exact Or.inl (heq ▸ hkv₀)
  · rw [if_neg hmem] at h
    rcases List.mem_append.mp h with h | h
    · exact Or.inl h
    · exact Or.inr (List.mem_singleton.mp h)

/-- C7.  A successful training call leaves, for the returned id, exactly
one record in `list()`, and that record's recorded feature order is the
loaded frame's columns with the target column removed, in original
order. -/
theorem train_records_feature_order (env : TrainEnv) (st : Store)
    (dataset_id target_column model_key : String) (hp : Option Dict)
    (ts : Rat) (sh : Bool) (rs : Int) (model_id : Option String)
    (df : Frame) (st' : Store) (mid : String)
    (metrics : List (String × Rat))
    (hnd : (dictKeys st.index).Nodup)
    (hwf : ∀ kv ∈ st.index, kv.2.model_id = kv.1)
    (hdf : env.load_df dataset_id = .ok df)
    (hrun : train_model env st dataset_id target_column model_key hp ts sh rs
      model_id = (st', .ok (mid, metrics))) :
    ∃ rec : StoredMeta,
      alookup mid st'.index = some rec ∧
      rec.model_id = mid ∧
      rec.meta.features = df.cols.filter (fun c => c ≠ target_column) ∧
      (list_models st').countP (fun r => r.model_id = mid) = 1 := by
  unfold train_model at hrun
  simp only [hdf] at hrun
  by_cases htc : target_column ∈ df.cols
  · rw [if_pos htc] at hrun
    cases hbm : build_model model_key (hp.getD []) with
    | error k => simp only [hbm] at hrun; exact absurd hrun (by simp)
    | ok model =>
      simp only [hbm] at hrun
      cases hsp : train_test_split (df.dropCol target_column)
          (df.series target_column) ts sh rs with
      | error d => simp only [hsp] at hrun; exact absurd hrun (by simp)
      | ok split =>
        simp only [hsp] at hrun
        cases hft : env.fit ⟨(_build_preprocessor (df.dropCol target_column)).1,
            model⟩ split.1.1 split.2.1 with
        | error d => simp only [hft] at hrun; exact absurd hrun (by simp)
        | ok fitted =>
          simp only [hft] at hrun
          obtain ⟨hst', hok⟩ := Prod.mk.injEq _ _ _ _ ▸ hrun
          have hmid : (save_model st fitted
              ⟨model_key, dataset_id, target_column,
               (_build_preprocessor (df.dropCol target_column)).2,
               [("accuracy", accuracy_score split.2.2
                  (split.1.2.rows.map fitted.predictRow))],
               hp.getD [], ts, sh, rs⟩
              model_id env.uuidHex env.now).2 = mid := by
            have := congrArg (fun x : String × List (String × Rat) => x.1)
              (Except.ok.injEq _ _ ▸ hok)
            exact this
          subst hst'
          subst hmid
          rw [save_model_eq]
          refine ⟨_, alookup_dictSet_self _ _ _, rfl, rfl, ?_⟩
          have hwf' : ∀ kv ∈ dictSet st.index (pyOrUuid model_id env.uuidHex)
              (⟨⟨model_key, dataset_id, target_column,
                 (_build_preprocessor (df.dropCol target_column)).2,
                 [("accuracy", accuracy_score split.2.2
                    (split.1.2.rows.map fitted.predictRow))],
                 hp.getD [], ts, sh, rs⟩,
                pyOrUuid model_id env.uuidHex,
                model_path (pyOrUuid model_id env.uuidHex), env.now⟩ : StoredMeta),
              kv.2.model_id = kv.1 := by
            intro kv hkv
            rcases mem_dictSet hkv with hkv | hkv
            · exact hwf kv hkv
            · rw [hkv]
          unfold list_models
          rw [List.countP_map]
          rw [List.countP_congr (fun kv hkv => by
            simp only [Function.comp]
            rw [hwf' kv hkv])]
          rw [countP_fst_eq_countP_keys]
          exact countP_keys_eq_one (nodup_dictKeys_dictSet _ _ _ hnd)
            (mem_dictKeys_dictSet_self _ _ _)
  · rw [if_neg htc] at hrun
    exact absurd hrun (by simp)

/-- C7 witness: training on the 2-row `[age, city, target]` frame leaves
exactly one listed record for the drawn id. -/
theorem train_records_feature_order_witness :
    (list_models (train_model envOk ⟨[], []⟩ "ds" "target"
        "logistic_regression" none (mkRat 1 2) true 42 none).1).countP
      (fun r => r.model_id = "u1") = 1 := by
  obtain ⟨rec, h1, h2, h3, h4⟩ := train_records_feature_order envOk ⟨[], []⟩
    "ds" "target" "logistic_regression" none (mkRat 1 2) true 42 none dfAgeCity
    (train_model envOk ⟨[], []⟩ "ds" "target" "logistic_regression" none
      (mkRat 1 2) true 42 none).1
    "u1" [("accuracy", accuracy_score [some (.pyint 0)] [.pyint 1])]
    (by decide) (by simp) rfl (by rfl)
  exact h4

end Mlops
